import Mathlib

/-
Verification of the traffic-generation and orchestration engine of the
osml-tile-server-test repository against its natural-language specification.

The definitions below are shallow embeddings of the Python sources:
  src/aws/osml/integ/test_tile_server.py   (orchestrator, readiness poller)
  src/aws/osml/load/locust_ts_user.py      (load behaviors, tile traversal,
                                            batched requests, detail fetches)
Machine integers are modelled as Nat, fallible code as Except, and the
remote service as response oracles passed in as explicit arguments.
-/

namespace TS

/-! ## Orchestrator (test_tile_server.py, class TestTileServer) -/

/-- Embedding of TestResult (test_tile_server.py lines 51-60): an enum with
members PASSED and FAILED. -/
inductive TestResult where
  | PASSED
  | FAILED
deriving DecidableEq, Repr

/-- Outcome oracle for one orchestrator run: for each remote call made by a
pipeline step, whether that call raises an exception. This abstracts the
endpoint helper functions imported at test_tile_server.py lines 12-27, which
either return normally or raise. -/
structure StepOutcomes where
  createInvalid : Bool
  create : Bool
  describe : Bool
  waitReady : Bool
  listViewpoints : Bool
  update : Bool
  getMetadata : Bool
  getBounds : Bool
  getInfo : Bool
  getStatistics : Bool
  getPreview : Bool
  getTile : Bool
  getCrop : Bool
  delete : Bool
  deleteInvalid : Bool
deriving DecidableEq, Repr

/-- Embedding of the try-except-record pattern repeated in every test_* method
of TestTileServer (for example lines 109-125): the step body is attempted; on
normal return the step name maps to PASSED, on an exception it maps to FAILED,
and in both cases control flows on. The results dictionary is modelled as an
association list in insertion order. -/
def tryStep (name : String) (raises : Bool) (results : List (String × TestResult)) :
    List (String × TestResult) :=
  results ++ [(name, if raises then TestResult.FAILED else TestResult.PASSED)]

/-- Embedding of TestTileServer.test_create_viewpoint (lines 109-125): two
recorded sub-steps, each in its own failure boundary. -/
def test_create_viewpoint (o : StepOutcomes) (rs : List (String × TestResult)) :
    List (String × TestResult) :=
  tryStep "Create Viewpoint" o.create (tryStep "Create Viewpoint - Invalid" o.createInvalid rs)

/-- Embedding of TestTileServer.test_describe_viewpoint (lines 127-135). -/
def test_describe_viewpoint (o : StepOutcomes) (rs : List (String × TestResult)) :
    List (String × TestResult) :=
  tryStep "Describe Viewpoint" o.describe rs

/-- Embedding of TestTileServer.test_list_viewpoints (lines 137-145). -/
def test_list_viewpoints (o : StepOutcomes) (rs : List (String × TestResult)) :
    List (String × TestResult) :=
  tryStep "List Viewpoints" o.listViewpoints rs

/-- Embedding of TestTileServer.test_update_viewpoint (lines 147-155). -/
def test_update_viewpoint (o : StepOutcomes) (rs : List (String × TestResult)) :
    List (String × TestResult) :=
  tryStep "Update Viewpoint" o.update rs

/-- Embedding of TestTileServer.test_get_metadata (lines 157-165). -/
def test_get_metadata (o : StepOutcomes) (rs : List (String × TestResult)) :
    List (String × TestResult) :=
  tryStep "Get Metadata" o.getMetadata rs

/-- Embedding of TestTileServer.test_get_bounds (lines 167-175). -/
def test_get_bounds (o : StepOutcomes) (rs : List (String × TestResult)) :
    List (String × TestResult) :=
  tryStep "Get Bounds" o.getBounds rs

/-- Embedding of TestTileServer.test_get_info (lines 177-185). -/
def test_get_info (o : StepOutcomes) (rs : List (String × TestResult)) :
    List (String × TestResult) :=
  tryStep "Get Info" o.getInfo rs

/-- Embedding of TestTileServer.test_get_statistics (lines 187-195). -/
def test_get_statistics (o : StepOutcomes) (rs : List (String × TestResult)) :
    List (String × TestResult) :=
  tryStep "Get Statistics" o.getStatistics rs

/-- Embedding of TestTileServer.test_get_preview (lines 197-205). -/
def test_get_preview (o : StepOutcomes) (rs : List (String × TestResult)) :
    List (String × TestResult) :=
  tryStep "Get Preview" o.getPreview rs

/-- Embedding of TestTileServer.test_get_tile (lines 207-215). -/
def test_get_tile (o : StepOutcomes) (rs : List (String × TestResult)) :
    List (String × TestResult) :=
  tryStep "Get Tile" o.getTile rs

/-- Embedding of TestTileServer.test_get_crop (lines 217-225). -/
def test_get_crop (o : StepOutcomes) (rs : List (String × TestResult)) :
    List (String × TestResult) :=
  tryStep "Get Crop" o.getCrop rs

/-- Embedding of TestTileServer.test_delete_viewpoint (lines 227-243): two
recorded sub-steps, each in its own failure boundary. -/
def test_delete_viewpoint (o : StepOutcomes) (rs : List (String × TestResult)) :
    List (String × TestResult) :=
  tryStep "Delete Viewpoint - Invalid" o.deleteInvalid (tryStep "Delete Viewpoint" o.delete rs)

/-- Embedding of TestTileServer.run_integ_test (lines 71-89). The method calls
the recording steps in a fixed order, but the call to wait_for_viewpoint_ready
at line 75 is NOT wrapped in a try-except and records nothing: if it raises,
the exception propagates out of run_integ_test. The returned Bool is true when
the pipeline ran to completion and false when it was aborted by an uncaught
exception from the readiness wait; the list holds the recorded step results at
that point. -/
def run_integ_test (o : StepOutcomes) : List (String × TestResult) × Bool :=
  let rs := test_create_viewpoint o []
  let rs := test_describe_viewpoint o rs
  if o.waitReady then (rs, false)
  else
    let rs := test_list_viewpoints o rs
    let rs := test_update_viewpoint o rs
    let rs := test_get_metadata o rs
    let rs := test_get_bounds o rs
    let rs := test_get_info o rs
    let rs := test_get_statistics o rs
    let rs := test_get_preview o rs
    let rs := test_get_tile o rs
    let rs := test_get_crop o rs
    let rs := test_delete_viewpoint o rs
    (rs, true)

/-- Names of the recording steps in the order run_integ_test attempts them.
The readiness wait at line 75 appears between Describe Viewpoint and List
Viewpoints but records no entry. -/
def integStepNames : List String :=
  ["Create Viewpoint - Invalid", "Create Viewpoint", "Describe Viewpoint",
   "List Viewpoints", "Update Viewpoint", "Get Metadata", "Get Bounds",
   "Get Info", "Get Statistics", "Get Preview", "Get Tile", "Get Crop",
   "Delete Viewpoint", "Delete Viewpoint - Invalid"]

/-! ## Readiness poller (test_tile_server.py, wait_for_viewpoint_ready, lines 91-107) -/

/-- Trace of one polling run: how many describe calls were issued, the
sequence of sleep durations performed, and the outcome (ok READY, or an error
string for the timeout exception or an unexpected terminal status). -/
structure PollTrace where
  describes : Nat
  sleeps : List Nat
  outcome : Except String String
deriving Repr

/-- Embedding of the loop of TestTileServer.wait_for_viewpoint_ready
(lines 96-107), generalized over the polling interval and timeout that the
source fixes at lines 92-93 (2 and 300 seconds). The argument resp gives the
viewpoint_status carried by the k-th describe response; e is the elapsed wait
time. Each iteration first checks elapsed against the timeout (raising the
timeout exception once exceeded), then issues one describe, sleeps the
constant interval, and adds the interval to the elapsed time; the loop exits
as soon as the observed status differs from REQUESTED, after which a status
other than READY raises. -/
def waitLoop (resp : Nat → String) (interval timeout : Nat) (hI : 0 < interval) :
    Nat → Nat → PollTrace
  | e, k =>
    if timeout < e then ⟨0, [], Except.error "timeout"⟩
    else if resp k = "REQUESTED" then
      let r := waitLoop resp interval timeout hI (e + interval) (k + 1)
      ⟨r.describes + 1, interval :: r.sleeps, r.outcome⟩
    else
      ⟨1, [interval],
        if resp k = "READY" then Except.ok (resp k) else Except.error (resp k)⟩
termination_by e _ => timeout + 1 - e
decreasing_by omega

/-- Embedding of TestTileServer.wait_for_viewpoint_ready (lines 91-107):
status starts as REQUESTED and elapsed_wait_time as 0, so the loop is entered
with elapsed time 0 and the first describe response. -/
def wait_for_viewpoint_ready (resp : Nat → String) (interval timeout : Nat)
    (hI : 0 < interval) : PollTrace :=
  waitLoop resp interval timeout hI 0 0

/-! ## Locust readiness wait (locust_ts_user.py, wait_for_viewpoint_ready,
lines 176-198) and the lifecycle behaviors (lines 91-121) -/

/-- Embedding of the loop of TileServerUser.wait_for_viewpoint_ready
(lines 183-198): a retry-count-bounded poll. The oracle resp gives the
viewpoint_status of the k-th describe response (the embedding assumes every
response carries a status; a response without one neither updates the status
nor consumes a retry in the source). Returns the final status together with
the done flag. -/
def waitLocustLoop (resp : Nat → String) :
    Nat → String → Nat → String × Bool
  | 0, finalStatus, _ => (finalStatus, false)
  | numRetries + 1, _, k =>
    let s := resp k
    if s = "READY" ∨ s = "FAILED" ∨ s = "DELETED" then (s, true)
    else waitLocustLoop resp numRetries s (k + 1)

/-- Embedding of TileServerUser.wait_for_viewpoint_ready (lines 176-198):
num_retries starts at 120 and final_status at NOT_FOUND; the call returns the
final status whether or not the wait gave up. -/
def wait_for_viewpoint_ready_locust (resp : Nat → String) : String :=
  (waitLocustLoop resp 120 "NOT_FOUND" 0).1

/-- Embedding of TileServerUser.view_new_image_behavior (lines 103-121).
createdId is the viewpoint id returned by create_viewpoint (None on failure);
resp is the describe-status oracle consumed by the readiness wait. Returns
which follow-up calls the behavior performs: (requested tiles, deleted the
viewpoint). -/
def view_new_image_behavior (createdId : Option String) (resp : Nat → String) :
    Bool × Bool :=
  match createdId with
  | none => (false, false)
  | some _ =>
    let finalStatus := wait_for_viewpoint_ready_locust resp
    (finalStatus = "READY", finalStatus = "READY" ∨ finalStatus = "FAILED")

/-- Embedding of TileServerUser.view_new_map_behavior (lines 91-101): the same
lifecycle decisions as view_new_image_behavior, with map-tile requests in
place of pyramid-tile requests. -/
def view_new_map_behavior (createdId : Option String) (resp : Nat → String) :
    Bool × Bool :=
  match createdId with
  | none => (false, false)
  | some _ =>
    let finalStatus := wait_for_viewpoint_ready_locust resp
    (finalStatus = "READY", finalStatus = "READY" ∨ finalStatus = "FAILED")

/-! ## Hilbert-curve tile traversal (locust_ts_user.py, request_tiles,
lines 200-232) -/

/-- Modelled from the spec: the standard Hilbert distance-to-point transform
of order p in dimension 2, supplied to the source by the external
hilbertcurve package (HilbertCurve(p, 2).points_from_distances, lines
225-228), whose code is not part of this repository. Per the spec, a curve
distance in [0, 4 ^ p) is mapped to a grid coordinate pair in [0, 2 ^ p) on
both axes; the order-(p+1) curve visits its four order-p quadrants in the
standard order (lower-left transposed, upper-left, upper-right, lower-right
reflected). -/
def d2xy : Nat → Nat → Nat × Nat
  | 0, _ => (0, 0)
  | p + 1, d =>
    if d / 4 ^ p = 0 then
      ((d2xy p (d % 4 ^ p)).2, (d2xy p (d % 4 ^ p)).1)
    else if d / 4 ^ p = 1 then
      ((d2xy p (d % 4 ^ p)).1, (d2xy p (d % 4 ^ p)).2 + 2 ^ p)
    else if d / 4 ^ p = 2 then
      ((d2xy p (d % 4 ^ p)).1 + 2 ^ p, (d2xy p (d % 4 ^ p)).2 + 2 ^ p)
    else
      (2 ^ (p + 1) - 1 - (d2xy p (d % 4 ^ p)).2, 2 ^ p - 1 - (d2xy p (d % 4 ^ p)).1)

/-- Inverse transform (point to curve distance), used only to establish that
d2xy is injective on the distances the planner enumerates. -/
def xy2d : Nat → Nat × Nat → Nat
  | 0, _ => 0
  | p + 1, (x, y) =>
    if x < 2 ^ p then
      if y < 2 ^ p then xy2d p (y, x)
      else 4 ^ p + xy2d p (x, y - 2 ^ p)
    else
      if y < 2 ^ p then 3 * 4 ^ p + xy2d p (2 ^ p - 1 - y, 2 ^ (p + 1) - 1 - x)
      else 2 * 4 ^ p + xy2d p (x - 2 ^ p, y - 2 ^ p)

/-- Embedding of the curve-order computation at locust_ts_user.py line 223,
p = ceil(log(count) / (2 * log(2))). Over the reals this quantity is the
ceiling of the base-4 logarithm of count, which for positive count is
Nat.clog 4 count (the least p with count at most 4 ^ p); the floating-point
evaluation in the source is modelled by this exact value. -/
def hilbertOrder (count : Nat) : Nat := Nat.clog 4 count

/-- Embedding of HilbertCurve.points_from_distances (line 228): map each curve
distance to its grid point. -/
def points_from_distances (p : Nat) (distances : List Nat) : List (Nat × Nat) :=
  distances.map (d2xy p)

/-! ## Fixed-size request batching (locust_ts_user.py, lines 226-232) -/

/-- Embedding of the chunking pattern at lines 226-227: for i in
range(0, len(items), batchSize) the slice items[i : i + batchSize] is taken,
partitioning the items into consecutive chunks of at most batchSize. -/
def chunkList (batchSize : Nat) (hB : 0 < batchSize) : List α → List (List α)
  | [] => []
  | x :: xs => (x :: xs).take batchSize :: chunkList batchSize hB ((x :: xs).drop batchSize)
termination_by l => l.length
decreasing_by simp [List.length_drop]; omega

/-- Events observable from a batched execution: a request is dispatched, or a
request completes with a success flag. -/
inductive ReqEvent (α : Type) where
  | dispatch (item : α)
  | complete (item : α) (ok : Bool)
deriving DecidableEq, Repr

/-- Schedule of the batcher loop at lines 229-232 starting from chunk index k:
for each chunk, every request in the chunk is dispatched into the gevent pool,
then pool.join blocks until every one of them has completed (each with its own
outcome f item), and only then does the next chunk begin. Events are tagged
with their chunk index. -/
def chunkTraceAux (f : α → Bool) : Nat → List (List α) → List (Nat × ReqEvent α)
  | _, [] => []
  | k, c :: cs =>
    (c.map (fun a => (k, ReqEvent.dispatch a)) ++
      c.map (fun a => (k, ReqEvent.complete a (f a)))) ++ chunkTraceAux f (k + 1) cs

/-- Schedule of one full batched execution over the given chunks. -/
def chunkTrace (f : α → Bool) (cs : List (List α)) : List (Nat × ReqEvent α) :=
  chunkTraceAux f 0 cs

/-! ## Pyramid-mode planner (locust_ts_user.py, request_tiles, lines 221-232) -/

/-- Embedding of the per-zoom tile count at line 222,
ceil(num_tiles / 4 ** z), as exact natural ceiling division. -/
def numTilesAtZoom (numTiles z : Nat) : Nat := (numTiles + 4 ^ z - 1) / 4 ^ z

/-- Zoom levels iterated by the pyramid traversal at line 221. -/
def pyramidZoomLevels : List Nat := [3, 2, 1, 0]

/-- Embedding of the inner loop of request_tiles at lines 223-232 for one zoom
level: the curve order is computed from the per-zoom count, the curve
distances 0..count-1 are split into batches of batch_size, and each batch of
distances is mapped to (column, row, zoom) tiles. -/
def tilesAtZoom (z count batchSize : Nat) (hB : 0 < batchSize) :
    List (List (Nat × Nat × Nat)) :=
  (chunkList batchSize hB (List.range count)).map
    (fun distances =>
      (points_from_distances (hilbertOrder count) distances).map
        (fun pt => (pt.1, pt.2, z)))

/-- All tiles the pyramid traversal requests at one zoom level, in request
order. -/
def emittedAtZoom (z count batchSize : Nat) (hB : 0 < batchSize) :
    List (Nat × Nat × Nat) :=
  (tilesAtZoom z count batchSize hB).flatten

/-- Embedding of TileServerUser.request_tiles (lines 200-232): iterate the
zoom levels 3, 2, 1, 0 and at each zoom plan the batched tile requests for
that zoom-level count. -/
def request_tiles (numTiles batchSize : Nat) (hB : 0 < batchSize) :
    List (Nat × List (List (Nat × Nat × Nat))) :=
  pyramidZoomLevels.map (fun z => (z, tilesAtZoom z (numTilesAtZoom numTiles z) batchSize hB))

/-! ## Map-mode traversal (locust_ts_user.py, request_map_tiles,
lines 234-279) -/

/-- Embedding of one parsed tileMatrixSetLimits entry (lines 245-253): the
inclusive row and column bounds published for one zoom level. -/
structure TileMatrixLimits where
  minTileRow : Nat
  minTileCol : Nat
  maxTileRow : Nat
  maxTileCol : Nat
deriving DecidableEq, Repr

/-- Embedding of the inner column loop at lines 274-278: walk the columns of
one row, breaking out of the column loop as soon as the running fetched total
reaches num_tiles, and otherwise emitting (tx, ty, zoom) and incrementing the
total. Returns the emitted tiles and the updated total. -/
def emitRowLoop (numTiles : Nat) :
    List Nat → Nat → Nat → Nat → List (Nat × Nat × Nat) × Nat
  | [], fetched, _, _ => ([], fetched)
  | tx :: rest, fetched, ty, zoom =>
    if numTiles ≤ fetched then ([], fetched)
    else
      let r := emitRowLoop numTiles rest (fetched + 1) ty zoom
      ((tx, ty, zoom) :: r.1, r.2)

/-- Embedding of the row loop at lines 273-278: rows are walked from
minTileRow to maxTileRow; the break at line 276 only leaves the column loop,
so later rows are still visited (each immediately re-checks the cap). -/
def emitZoomLoop (numTiles minTx maxTx zoom : Nat) :
    List Nat → Nat → List (Nat × Nat × Nat) × Nat
  | [], fetched => ([], fetched)
  | ty :: rest, fetched =>
    let row := emitRowLoop numTiles (List.range' minTx (maxTx + 1 - minTx)) fetched ty zoom
    let r := emitZoomLoop numTiles minTx maxTx zoom rest row.2
    (row.1 ++ r.1, r.2)

/-- Embedding of the zoom loop at lines 264-279: zooms run ascending; a zoom
with no entry in the parsed limits map is skipped; for a present zoom the
row/column grid is walked under the shared fetched counter. Returns one
(zoom, emitted tiles) group per non-skipped zoom, in traversal order. -/
def mapTilesLoop (limits : Nat → Option TileMatrixLimits) (numTiles : Nat) :
    List Nat → Nat → List (Nat × List (Nat × Nat × Nat))
  | [], _ => []
  | z :: rest, fetched =>
    match limits z with
    | none => mapTilesLoop limits numTiles rest fetched
    | some lim =>
      let zr := emitZoomLoop numTiles lim.minTileCol lim.maxTileCol z
        (List.range' lim.minTileRow (lim.maxTileRow + 1 - lim.minTileRow)) fetched
      (z, zr.1) :: mapTilesLoop limits numTiles rest zr.2

/-- Embedding of the traversal portion of TileServerUser.request_map_tiles
(lines 264-279): limits is the parsed_tileset_limits map built at lines
242-253, maxZoom the max_zoom_level computed there, and numTiles the
caller-supplied cap (default 100); the fetched counter starts at 0. -/
def request_map_tiles (limits : Nat → Option TileMatrixLimits)
    (maxZoom numTiles : Nat) : List (Nat × List (Nat × Nat × Nat)) :=
  mapTilesLoop limits numTiles (List.range (maxZoom + 1)) 0

/-- Full row-major enumeration of the grid of one zoom level: rows ascending,
and within each row columns ascending. -/
def rowMajor (lim : TileMatrixLimits) (zoom : Nat) : List (Nat × Nat × Nat) :=
  ((List.range' lim.minTileRow (lim.maxTileRow + 1 - lim.minTileRow)).map
    (fun ty => (List.range' lim.minTileCol (lim.maxTileCol + 1 - lim.minTileCol)).map
      (fun tx => (tx, ty, zoom)))).flatten

/-! ## Detail fetches of the discovery behavior (locust_ts_user.py,
lines 312-404) -/

/-- Membership test of one character-list pattern at the head of another,
mirroring Python substring search. -/
def charsLeading : List Char → List Char → Bool
  | [], _ => true
  | _ :: _, [] => false
  | a :: as, b :: bs => a = b && charsLeading as bs

/-- Containment of one character list inside another at any position. -/
def charsWithin (needle : List Char) : List Char → Bool
  | [] => charsLeading needle []
  | b :: bs => charsLeading needle (b :: bs) || charsWithin needle bs

/-- Embedding of the Python expression needle in haystack on strings. -/
def strContains (haystack needle : String) : Bool :=
  charsWithin needle.data haystack.data

/-- JSON object bodies are modelled as association lists from key to the
string rendering of the value; the handlers only test key membership and read
the detail string. -/
def JsonObj : Type := List (String × String)

/-- Response as seen by a detail-fetch handler: the HTTP status code, the
parsed JSON body (none when the body was absent or not valid JSON), and
whether the raw body was non-empty. -/
structure FetchResponse where
  status_code : Nat
  js : Option JsonObj
  content : Bool

/-- Outcome a handler records for its request. -/
inductive FetchResult where
  | success
  | failure (msg : String)

/-- Modelled from the spec: the outcome recorded for a request that the
handler body neither marks success nor marks failure, supplied by the locust
transport layer, which is not part of this repository. Per the spec error
taxonomy, an error status code is a protocol error recorded as a failure and
a non-error status stands as a success. -/
def defaultMark (resp : FetchResponse) : FetchResult :=
  if resp.status_code < 400 then FetchResult.success
  else FetchResult.failure "unexpected status"

/-- The message the handlers look for inside the detail field of a 404
response (lines 319, 333, 347, 364, 379, 388). -/
def alreadyDeletedMsg : String := "already been deleted"

/-- Embedding of the common shape of get_viewpoint_metadata (lines 312-324),
get_viewpoint_bounds (326-338), get_viewpoint_info (340-355) and
get_viewpoint_statistics (357-369), parameterized by the field the 2xx body
must carry. The 404 branch subscripts response.js with the detail key before
any None or membership check, so a 404 without a parsed JSON body raises a
TypeError and a 404 whose body lacks the detail key raises a KeyError; either
exception leaves the handler body without recording an outcome (modelled as
Except.error). Otherwise the handler marks success for an
already-been-deleted 404, marks failure when a parsed body lacks the expected
field, and leaves every other response to the default marking. -/
def detailFetchHandler (field : String) (resp : FetchResponse) :
    Except String FetchResult :=
  if resp.status_code = 404 then
    match resp.js with
    | none => Except.error "TypeError: response.js is None"
    | some obj =>
      match obj.lookup "detail" with
      | none => Except.error "KeyError: detail"
      | some d =>
        if strContains d alreadyDeletedMsg then Except.ok FetchResult.success
        else
          match resp.js with
          | some obj2 =>
            if (obj2.lookup field).isNone then
              Except.ok (FetchResult.failure "expected field missing")
            else Except.ok (defaultMark resp)
          | none => Except.ok (defaultMark resp)
  else
    match resp.js with
    | some obj2 =>
      if (obj2.lookup field).isNone then
        Except.ok (FetchResult.failure "expected field missing")
      else Except.ok (defaultMark resp)
    | none => Except.ok (defaultMark resp)

/-- Embedding of get_viewpoint_metadata (lines 312-324). -/
def get_viewpoint_metadata (resp : FetchResponse) : Except String FetchResult :=
  detailFetchHandler "metadata" resp

/-- Embedding of get_viewpoint_statistics (lines 357-369). -/
def get_viewpoint_statistics (resp : FetchResponse) : Except String FetchResult :=
  detailFetchHandler "image_statistics" resp

/-- Embedding of get_viewpoint_preview (lines 371-384): the same unguarded
404 branch, but the non-404 check is on emptiness of the raw content rather
than on a JSON field. -/
def get_viewpoint_preview (resp : FetchResponse) : Except String FetchResult :=
  if resp.status_code = 404 then
    match resp.js with
    | none => Except.error "TypeError: response.js is None"
    | some obj =>
      match obj.lookup "detail" with
      | none => Except.error "KeyError: detail"
      | some d =>
        if strContains d alreadyDeletedMsg then Except.ok FetchResult.success
        else if resp.content = false then
          Except.ok (FetchResult.failure "GetPreview response contained no content")
        else Except.ok (defaultMark resp)
  else if resp.content = false then
    Except.ok (FetchResult.failure "GetPreview response contained no content")
  else Except.ok (defaultMark resp)

/-- True when a fetch recorded an explicit or default failure (and did not
raise). -/
def isRecordedFailure : Except String FetchResult → Bool
  | Except.ok (FetchResult.failure _) => true
  | _ => false

/-- True when a fetch recorded a success (and did not raise). -/
def isRecordedSuccess : Except String FetchResult → Bool
  | Except.ok FetchResult.success => true
  | _ => false

/-! ## Helper lemmas -/

/-- Natural ceiling division (a + b - 1) / b agrees with the rational ceiling
of a / b. -/
theorem natCeilDiv_eq_ratCeil (a b : Nat) (hb : 0 < b) :
    ((a + b - 1) / b : Nat) = ⌈(a : ℚ) / b⌉₊ := by
  have hbq : (0 : ℚ) < b := by exact_mod_cast hb
  apply le_antisymm
  · rw [Nat.div_le_iff_le_mul_add_pred hb]
    have h1 : (a : ℚ) / b ≤ ⌈(a : ℚ) / b⌉₊ := Nat.le_ceil _
    rw [div_le_iff₀ hbq] at h1
    have h2 : a ≤ ⌈(a : ℚ) / b⌉₊ * b := by exact_mod_cast h1
    have h3 : a ≤ b * ⌈(a : ℚ) / b⌉₊ := by rw [mul_comm] at h2; exact h2
    omega
  · rw [Nat.ceil_le, div_le_iff₀ hbq]
    have h1 : a ≤ b * ((a + b - 1) / b) := by
      have h2 := Nat.div_add_mod (a + b - 1) b
      have h3 := Nat.mod_lt (a + b - 1) hb
      omega
    have h4 : a ≤ (a + b - 1) / b * b := by rw [mul_comm] at h1; exact h1
    exact_mod_cast h4

/-! ## Claim C1: orchestrator step isolation -/

/-- Expected recorded results of a completed orchestrator run: one entry per
recording step in pipeline order, FAILED exactly when that step raised. -/
def expectedResults (o : StepOutcomes) : List (String × TestResult) :=
  [("Create Viewpoint - Invalid", if o.createInvalid then TestResult.FAILED else TestResult.PASSED),
   ("Create Viewpoint", if o.create then TestResult.FAILED else TestResult.PASSED),
   ("Describe Viewpoint", if o.describe then TestResult.FAILED else TestResult.PASSED),
   ("List Viewpoints", if o.listViewpoints then TestResult.FAILED else TestResult.PASSED),
   ("Update Viewpoint", if o.update then TestResult.FAILED else TestResult.PASSED),
   ("Get Metadata", if o.getMetadata then TestResult.FAILED else TestResult.PASSED),
   ("Get Bounds", if o.getBounds then TestResult.FAILED else TestResult.PASSED),
   ("Get Info", if o.getInfo then TestResult.FAILED else TestResult.PASSED),
   ("Get Statistics", if o.getStatistics then TestResult.FAILED else TestResult.PASSED),
   ("Get Preview", if o.getPreview then TestResult.FAILED else TestResult.PASSED),
   ("Get Tile", if o.getTile then TestResult.FAILED else TestResult.PASSED),
   ("Get Crop", if o.getCrop then TestResult.FAILED else TestResult.PASSED),
   ("Delete Viewpoint", if o.delete then TestResult.FAILED else TestResult.PASSED),
   ("Delete Viewpoint - Invalid", if o.deleteInvalid then TestResult.FAILED else TestResult.PASSED)]

/-- Run in which only the readiness wait raises. -/
def oWaitRaises : StepOutcomes :=
  ⟨false, false, false, true, false, false, false, false, false, false, false,
   false, false, false, false⟩

/-- Run in which no step raises. -/
def oAllPass : StepOutcomes :=
  ⟨false, false, false, false, false, false, false, false, false, false, false,
   false, false, false, false⟩

/-- C1 counterexample: when the readiness wait (the await-ready step) raises,
the orchestrator does not record a FAILED entry for it and does not proceed:
the run aborts with only the three results recorded before the wait, all
PASSED, refuting that an exception in every step is recorded under that step
and that execution proceeds unconditionally with one result per attempted
step. -/
theorem claim_C1_counterexample :
    (run_integ_test oWaitRaises).2 = false ∧
    (run_integ_test oWaitRaises).1.length = 3 ∧
    ∀ kv ∈ (run_integ_test oWaitRaises).1, kv.2 = TestResult.PASSED := by
  decide

/-- C1 (amended): for every step other than the await-ready wait, an exception
during the step is recorded as FAILED under that step name and execution
proceeds to the next step; whenever the await-ready wait does not raise, the
run attempts every step and records exactly one result for each of the 14
recording steps, with each entry FAILED exactly when its own step raised. -/
theorem claim_C1_amended (o : StepOutcomes) (h : o.waitReady = false) :
    (run_integ_test o).2 = true ∧
    (run_integ_test o).1 = expectedResults o ∧
    (run_integ_test o).1.map Prod.fst = integStepNames ∧
    (run_integ_test o).1.length = 14 := by
  refine ⟨?_, ?_, ?_, ?_⟩ <;>
    simp [run_integ_test, test_create_viewpoint, test_describe_viewpoint,
      test_list_viewpoints, test_update_viewpoint, test_get_metadata,
      test_get_bounds, test_get_info, test_get_statistics, test_get_preview,
      test_get_tile, test_get_crop, test_delete_viewpoint, tryStep, h,
      expectedResults, integStepNames]

/-- C1 witness: the amended theorem applied to the run in which no step
raises. -/
theorem claim_C1_witness :
    oAllPass.waitReady = false ∧
    ((run_integ_test oAllPass).2 = true ∧
      (run_integ_test oAllPass).1 = expectedResults oAllPass ∧
      (run_integ_test oAllPass).1.map Prod.fst = integStepNames ∧
      (run_integ_test oAllPass).1.length = 14) :=
  ⟨rfl, claim_C1_amended oAllPass rfl⟩

/-! ## Claim C2: polling bound of the readiness poller -/

/-- While every describe response still reports REQUESTED, the polling loop
started at elapsed time e issues at most (timeout - e) / interval + 1
describe calls, ends in the timeout error, and sleeps the constant interval
between describes. -/
theorem waitLoop_requested_spec (resp : Nat → String) (I T : Nat) (hI : 0 < I)
    (hreq : ∀ n, resp n = "REQUESTED") :
    ∀ e k, (waitLoop resp I T hI e k).describes ≤ (T - e) / I + 1 ∧
      (waitLoop resp I T hI e k).outcome = Except.error "timeout" ∧
      ∀ s ∈ (waitLoop resp I T hI e k).sleeps, s = I := by
  have H : ∀ m e k, T + 1 - e ≤ m →
      (waitLoop resp I T hI e k).describes ≤ (T - e) / I + 1 ∧
      (waitLoop resp I T hI e k).outcome = Except.error "timeout" ∧
      ∀ s ∈ (waitLoop resp I T hI e k).sleeps, s = I := by
    intro m
    induction m with
    | zero =>
      intro e k hm
      have he : T < e := by omega
      rw [waitLoop, if_pos he]
      refine ⟨by simp, rfl, by intro s hs; simp at hs⟩
    | succ m ih =>
      intro e k hm
      by_cases he : T < e
      · rw [waitLoop, if_pos he]
        refine ⟨by simp, rfl, by intro s hs; simp at hs⟩
      · have hrec := ih (e + I) (k + 1) (by omega)
        rw [waitLoop, if_neg he, if_pos (hreq k)]
        refine ⟨?_, hrec.2.1, ?_⟩
        · show (waitLoop resp I T hI (e + I) (k + 1)).describes + 1 ≤ (T - e) / I + 1
          by_cases hB : T < e + I
          · have h0 : (waitLoop resp I T hI (e + I) (k + 1)).describes = 0 := by
              rw [waitLoop, if_pos hB]
            rw [h0]
            simp
          · have hdiv : (T - e) / I = (T - (e + I)) / I + 1 := by
              have hsub : T - e = (T - (e + I)) + I := by omega
              rw [hsub, Nat.add_div_right _ hI]
            rw [hdiv]
            exact Nat.add_le_add_right hrec.1 1
        · show ∀ s ∈ I :: (waitLoop resp I T hI (e + I) (k + 1)).sleeps, s = I
          intro s hs
          rcases List.mem_cons.mp hs with h | h
          · exact h
          · exact hrec.2.2 s h
  intro e k
  exact H (T + 1 - e) e k le_rfl

/-- C2: for every polling interval I and timeout T, when the viewpoint status
stays REQUESTED the readiness poller issues at most ceil(T / I) + 1 describe
calls before raising the timeout condition, and the sleep interval between
describes is the constant I (no backoff). -/
theorem claim_C2 (resp : Nat → String) (I T : Nat) (hI : 0 < I)
    (hreq : ∀ n, resp n = "REQUESTED") :
    (wait_for_viewpoint_ready resp I T hI).describes ≤ ⌈(T : ℚ) / I⌉₊ + 1 ∧
    (wait_for_viewpoint_ready resp I T hI).outcome = Except.error "timeout" ∧
    ∀ s ∈ (wait_for_viewpoint_ready resp I T hI).sleeps, s = I := by
  have h := waitLoop_requested_spec resp I T hI hreq 0 0
  have hceil : (T : Nat) / I ≤ (T + I - 1) / I :=
    Nat.div_le_div_right (by omega)
  have hc := natCeilDiv_eq_ratCeil T I hI
  refine ⟨?_, h.2.1, h.2.2⟩
  have h1 : (wait_for_viewpoint_ready resp I T hI).describes ≤ T / I + 1 := by
    simpa [wait_for_viewpoint_ready] using h.1
  calc (wait_for_viewpoint_ready resp I T hI).describes
      ≤ T / I + 1 := h1
    _ ≤ (T + I - 1) / I + 1 := Nat.add_le_add_right hceil 1
    _ = ⌈(T : ℚ) / I⌉₊ + 1 := by rw [hc]

/-- C2 witness: a poller with interval 2 and timeout 6 against responses that
never leave REQUESTED. -/
theorem claim_C2_witness :
    (0 < 2 ∧ ∀ n : Nat, (fun _ : Nat => "REQUESTED") n = "REQUESTED") ∧
    ((wait_for_viewpoint_ready (fun _ => "REQUESTED") 2 6 (by omega)).describes ≤
        ⌈(6 : ℚ) / 2⌉₊ + 1 ∧
      (wait_for_viewpoint_ready (fun _ => "REQUESTED") 2 6 (by omega)).outcome =
        Except.error "timeout" ∧
      ∀ s ∈ (wait_for_viewpoint_ready (fun _ => "REQUESTED") 2 6 (by omega)).sleeps,
        s = 2) :=
  ⟨⟨by omega, fun _ => rfl⟩,
    claim_C2 (fun _ => "REQUESTED") 2 6 (by omega) (fun _ => rfl)⟩

/-! ## Claims C3 and C4: Hilbert traversal -/

/-- Both coordinates produced by the order-p transform lie below 2 ^ p. -/
theorem d2xy_lt (p : Nat) : ∀ d, (d2xy p d).1 < 2 ^ p ∧ (d2xy p d).2 < 2 ^ p := by
  induction p with
  | zero => intro d; exact ⟨Nat.zero_lt_one, Nat.zero_lt_one⟩
  | succ p ih =>
    intro d
    have h2 : 0 < 2 ^ p := Nat.pos_pow_of_pos p (by omega)
    obtain ⟨hx, hy⟩ := ih (d % 4 ^ p)
    have hpow : 2 ^ (p + 1) = 2 ^ p + 2 ^ p := by rw [pow_succ]; omega
    rw [d2xy]
    by_cases h0 : d / 4 ^ p = 0
    · rw [if_pos h0]
      refine ⟨?_, ?_⟩
      · show (d2xy p (d % 4 ^ p)).2 < 2 ^ (p + 1)
        omega
      · show (d2xy p (d % 4 ^ p)).1 < 2 ^ (p + 1)
        omega
    · rw [if_neg h0]
      by_cases h1 : d / 4 ^ p = 1
      · rw [if_pos h1]
        refine ⟨?_, ?_⟩
        · show (d2xy p (d % 4 ^ p)).1 < 2 ^ (p + 1)
          omega
        · show (d2xy p (d % 4 ^ p)).2 + 2 ^ p < 2 ^ (p + 1)
          omega
      · rw [if_neg h1]
        by_cases hq : d / 4 ^ p = 2
        · rw [if_pos hq]
          refine ⟨?_, ?_⟩
          · show (d2xy p (d % 4 ^ p)).1 + 2 ^ p < 2 ^ (p + 1)
            omega
          · show (d2xy p (d % 4 ^ p)).2 + 2 ^ p < 2 ^ (p + 1)
            omega
        · rw [if_neg hq]
          refine ⟨?_, ?_⟩
          · show 2 ^ (p + 1) - 1 - (d2xy p (d % 4 ^ p)).2 < 2 ^ (p + 1)
            omega
          · show 2 ^ p - 1 - (d2xy p (d % 4 ^ p)).1 < 2 ^ (p + 1)
            omega

/-- The inverse transform recovers every curve distance below 4 ^ p from its
grid point, so the transform is injective on the enumerated distances. -/
theorem xy2d_d2xy (p : Nat) : ∀ d, d < 4 ^ p → xy2d p (d2xy p d) = d := by
  induction p with
  | zero =>
    intro d hd
    have h0 : d = 0 := by omega
    subst h0
    rfl
  | succ p ih =>
    intro d hd
    have h4 : 0 < 4 ^ p := Nat.pos_pow_of_pos p (by omega)
    have h2 : 0 < 2 ^ p := Nat.pos_pow_of_pos p (by omega)
    have hr : d % 4 ^ p < 4 ^ p := Nat.mod_lt d h4
    have hq4 : d / 4 ^ p < 4 := by
      apply Nat.div_lt_of_lt_mul
      calc d < 4 ^ (p + 1) := hd
        _ = 4 ^ p * 4 := by rw [pow_succ]
    have hdm := Nat.div_add_mod d (4 ^ p)
    obtain ⟨hx, hy⟩ := d2xy_lt p (d % 4 ^ p)
    have hrec := ih (d % 4 ^ p) hr
    have hpow : 2 ^ (p + 1) = 2 ^ p + 2 ^ p := by rw [pow_succ]; omega
    rw [d2xy]
    by_cases h0 : d / 4 ^ p = 0
    · rw [if_pos h0, xy2d]
      rw [if_pos (show (d2xy p (d % 4 ^ p)).2 < 2 ^ p from hy)]
      rw [if_pos (show (d2xy p (d % 4 ^ p)).1 < 2 ^ p from hx)]
      show xy2d p (d2xy p (d % 4 ^ p)) = d
      rw [hrec]
      rw [h0] at hdm
      omega
    · rw [if_neg h0]
      by_cases h1 : d / 4 ^ p = 1
      · rw [if_pos h1, xy2d]
        rw [if_pos (show (d2xy p (d % 4 ^ p)).1 < 2 ^ p from hx)]
        rw [if_neg (show ¬(d2xy p (d % 4 ^ p)).2 + 2 ^ p < 2 ^ p by omega)]
        rw [Nat.add_sub_cancel]
        show 4 ^ p + xy2d p (d2xy p (d % 4 ^ p)) = d
        rw [hrec]
        rw [h1] at hdm
        omega
      · rw [if_neg h1]
        by_cases hq : d / 4 ^ p = 2
        · rw [if_pos hq, xy2d]
          rw [if_neg (show ¬(d2xy p (d % 4 ^ p)).1 + 2 ^ p < 2 ^ p by omega)]
          rw [if_neg (show ¬(d2xy p (d % 4 ^ p)).2 + 2 ^ p < 2 ^ p by omega)]
          rw [Nat.add_sub_cancel, Nat.add_sub_cancel]
          show 2 * 4 ^ p + xy2d p (d2xy p (d % 4 ^ p)) = d
          rw [hrec]
          rw [hq] at hdm
          omega
        · have h3 : d / 4 ^ p = 3 := by
            obtain ⟨q, hqe⟩ : ∃ q, q = d / 4 ^ p := ⟨_, rfl⟩
            rw [← hqe] at h0 h1 hq hq4 ⊢
            omega
          rw [if_neg hq, xy2d]
          rw [if_neg (show ¬2 ^ (p + 1) - 1 - (d2xy p (d % 4 ^ p)).2 < 2 ^ p by omega)]
          rw [if_pos (show 2 ^ p - 1 - (d2xy p (d % 4 ^ p)).1 < 2 ^ p by omega)]
          have hxx : 2 ^ p - 1 - (2 ^ p - 1 - (d2xy p (d % 4 ^ p)).1) =
              (d2xy p (d % 4 ^ p)).1 := by omega
          have hyy : 2 ^ (p + 1) - 1 - (2 ^ (p + 1) - 1 - (d2xy p (d % 4 ^ p)).2) =
              (d2xy p (d % 4 ^ p)).2 := by omega
          rw [hxx, hyy]
          show 3 * 4 ^ p + xy2d p (d2xy p (d % 4 ^ p)) = d
          rw [hrec]
          rw [h3] at hdm
          omega

/-- Concatenating the chunks gives back the original items. -/
theorem chunkList_flatten (B : Nat) (hB : 0 < B) (l : List α) :
    (chunkList B hB l).flatten = l := by
  have H : ∀ n (l : List α), l.length ≤ n → (chunkList B hB l).flatten = l := by
    intro n
    induction n with
    | zero =>
      intro l hl
      have hnil : l = [] := List.eq_nil_of_length_eq_zero (by omega)
      subst hnil
      simp [chunkList]
    | succ n ih =>
      intro l hl
      cases l with
      | nil => simp [chunkList]
      | cons x xs =>
        have hl' : xs.length + 1 ≤ n + 1 := by simpa using hl
        rw [chunkList]
        rw [List.flatten_cons]
        rw [ih ((x :: xs).drop B)
          (by simp only [List.length_drop, List.length_cons]; omega)]
        exact List.take_append_drop B (x :: xs)
  exact H l.length l le_rfl

/-- The number of chunks is the ceiling of the item count over the batch
size. -/
theorem chunkList_length (B : Nat) (hB : 0 < B) (l : List α) :
    (chunkList B hB l).length = (l.length + B - 1) / B := by
  have H : ∀ n (l : List α), l.length ≤ n →
      (chunkList B hB l).length = (l.length + B - 1) / B := by
    intro n
    induction n with
    | zero =>
      intro l hl
      have hnil : l = [] := List.eq_nil_of_length_eq_zero (by omega)
      subst hnil
      simp [chunkList, Nat.div_eq_of_lt (show B - 1 < B by omega)]
    | succ n ih =>
      intro l hl
      cases l with
      | nil => simp [chunkList, Nat.div_eq_of_lt (show B - 1 < B by omega)]
      | cons x xs =>
        have hl' : xs.length + 1 ≤ n + 1 := by simpa using hl
        rw [chunkList]
        rw [List.length_cons]
        rw [ih ((x :: xs).drop B)
          (by simp only [List.length_drop, List.length_cons]; omega)]
        simp only [List.length_drop, List.length_cons]
        by_cases hLB : xs.length + 1 ≤ B
        · have e1 : xs.length + 1 - B = 0 := by omega
          have e2 : xs.length + 1 + B - 1 = xs.length + B := by omega
          rw [e1, e2, Nat.add_div_right _ hB]
          rw [Nat.div_eq_of_lt (show 0 + B - 1 < B by omega)]
          rw [Nat.div_eq_of_lt (show xs.length < B by omega)]
        · have e1 : xs.length + 1 - B + B - 1 = xs.length := by omega
          have e2 : xs.length + 1 + B - 1 = xs.length + B := by omega
          rw [e1, e2, Nat.add_div_right _ hB]
  exact H l.length l le_rfl

/-- Every chunk holds at most batchSize items. -/
theorem chunkList_sizes (B : Nat) (hB : 0 < B) (l : List α) :
    ∀ c ∈ chunkList B hB l, c.length ≤ B := by
  have H : ∀ n (l : List α), l.length ≤ n → ∀ c ∈ chunkList B hB l, c.length ≤ B := by
    intro n
    induction n with
    | zero =>
      intro l hl
      have hnil : l = [] := List.eq_nil_of_length_eq_zero (by omega)
      subst hnil
      intro c hc
      simp [chunkList] at hc
    | succ n ih =>
      intro l hl
      cases l with
      | nil => intro c hc; simp [chunkList] at hc
      | cons x xs =>
        intro c hc
        have hl' : xs.length + 1 ≤ n + 1 := by simpa using hl
        rw [chunkList] at hc
        rcases List.mem_cons.mp hc with h | h
        · subst h
          calc ((x :: xs).take B).length = min B (x :: xs).length := List.length_take ..
            _ ≤ B := Nat.min_le_left ..
        · exact ih ((x :: xs).drop B)
            (by simp only [List.length_drop, List.length_cons]; omega) c h
  exact H l.length l le_rfl

/-- The pyramid traversal at one zoom level enumerates, across its batches,
exactly the image of the curve distances 0..count-1 under the order-p
transform. -/
theorem emittedAtZoom_eq (z count B : Nat) (hB : 0 < B) :
    emittedAtZoom z count B hB =
      (List.range count).map (fun d =>
        ((d2xy (hilbertOrder count) d).1, (d2xy (hilbertOrder count) d).2, z)) := by
  unfold emittedAtZoom tilesAtZoom points_from_distances
  simp only [List.map_map]
  have heta : (fun distances =>
      List.map ((fun pt => (pt.1, pt.2, z)) ∘ d2xy (hilbertOrder count)) distances) =
      List.map ((fun pt : Nat × Nat => (pt.1, pt.2, z)) ∘ d2xy (hilbertOrder count)) := rfl
  rw [heta, ← List.map_flatten, chunkList_flatten]
  rfl

/-- C3: for every per-zoom requested count of at least 1, the pyramid-mode
traversal emits exactly count pairwise-distinct tile coordinates whose column
and row both lie below 2 ^ p, where the curve order p is the least p with
count at most 4 ^ p, the exact value of ceil(log2(sqrt(count))). -/
theorem claim_C3 (z count B : Nat) (hcount : 1 ≤ count) (hB : 0 < B) :
    (emittedAtZoom z count B hB).length = count ∧
    (emittedAtZoom z count B hB).Nodup ∧
    (∀ t ∈ emittedAtZoom z count B hB,
      t.1 < 2 ^ hilbertOrder count ∧ t.2.1 < 2 ^ hilbertOrder count) ∧
    (∀ q, count ≤ 4 ^ q ↔ hilbertOrder count ≤ q) := by
  have hle : count ≤ 4 ^ hilbertOrder count := Nat.le_pow_clog (by omega) count
  have heq := emittedAtZoom_eq z count B hB
  refine ⟨?_, ?_, ?_, fun q => Nat.le_pow_iff_clog_le (by omega)⟩
  · rw [heq, List.length_map, List.length_range]
  · rw [heq]
    refine List.Nodup.map_on ?_ (List.nodup_range count)
    intro a ha b hb hfe
    simp only [List.mem_range] at ha hb
    simp only [Prod.mk.injEq] at hfe
    have hab : d2xy (hilbertOrder count) a = d2xy (hilbertOrder count) b :=
      Prod.ext hfe.1 hfe.2.1
    have hinj := congrArg (xy2d (hilbertOrder count)) hab
    rw [xy2d_d2xy _ a (lt_of_lt_of_le ha hle),
      xy2d_d2xy _ b (lt_of_lt_of_le hb hle)] at hinj
    exact hinj
  · intro t ht
    rw [heq] at ht
    simp only [List.mem_map, List.mem_range] at ht
    obtain ⟨d, hd, rfl⟩ := ht
    exact ⟨(d2xy_lt _ d).1, (d2xy_lt _ d).2⟩

/-- C3 witness: a per-zoom count of 5 with batch size 2 at zoom 7. -/
theorem claim_C3_witness :
    (1 ≤ 5 ∧ 0 < 2) ∧
    ((emittedAtZoom 7 5 2 (by omega)).length = 5 ∧
      (emittedAtZoom 7 5 2 (by omega)).Nodup ∧
      (∀ t ∈ emittedAtZoom 7 5 2 (by omega),
        t.1 < 2 ^ hilbertOrder 5 ∧ t.2.1 < 2 ^ hilbertOrder 5) ∧
      (∀ q, 5 ≤ 4 ^ q ↔ hilbertOrder 5 ≤ q)) :=
  ⟨⟨by omega, by omega⟩, claim_C3 7 5 2 (by omega) (by omega)⟩

/-- C4: a per-zoom requested count of 1 yields the order-0 curve and the
single in-bounds coordinate (0, 0) at the requested zoom, with no error. -/
theorem claim_C4 (z B : Nat) (hB : 0 < B) :
    emittedAtZoom z 1 B hB = [(0, 0, z)] ∧ hilbertOrder 1 = 0 := by
  have h0 : hilbertOrder 1 = 0 := Nat.clog_one_right 4
  refine ⟨?_, h0⟩
  rw [emittedAtZoom_eq z 1 B hB, h0]
  rfl

/-- C4 witness: count 1 with batch size 5 at zoom 4. -/
theorem claim_C4_witness :
    0 < 5 ∧ (emittedAtZoom 4 1 5 (by omega) = [(0, 0, 4)] ∧ hilbertOrder 1 = 0) :=
  ⟨by omega, claim_C4 4 5 (by omega)⟩

/-! ## Claim C5: pyramid zoom iteration and per-zoom counts -/

/-- C5: the pyramid traversal iterates the zoom levels in the descending
order 3, 2, 1, 0; the per-zoom tile count is exactly the rational ceiling of
numTiles / 4 ^ z; and the tiles actually emitted at each planned zoom number
exactly that count. -/
theorem claim_C5 (numTiles B : Nat) (hB : 0 < B) :
    (request_tiles numTiles B hB).map Prod.fst = [3, 2, 1, 0] ∧
    (∀ z : Nat, numTilesAtZoom numTiles z = ⌈(numTiles : ℚ) / 4 ^ z⌉₊) ∧
    (∀ zb ∈ request_tiles numTiles B hB,
      (zb.2.flatten).length = numTilesAtZoom numTiles zb.1) := by
  have hlen : ∀ (z count : Nat), (emittedAtZoom z count B hB).length = count := by
    intro z count
    rw [emittedAtZoom_eq z count B hB, List.length_map, List.length_range]
  refine ⟨?_, ?_, ?_⟩
  · simp [request_tiles, pyramidZoomLevels]
  · intro z
    have hpos : 0 < 4 ^ z := Nat.pos_pow_of_pos z (by omega)
    have h := natCeilDiv_eq_ratCeil numTiles (4 ^ z) hpos
    rw [numTilesAtZoom, h]
    norm_cast
  · intro zb hzb
    simp only [request_tiles, pyramidZoomLevels, List.map_cons, List.map_nil,
      List.mem_cons, List.not_mem_nil, or_false] at hzb
    rcases hzb with h | h | h | h <;> subst h <;> exact hlen _ _

/-- C5 witness: a total tile budget of 5 with batch size 2. -/
theorem claim_C5_witness :
    0 < 2 ∧
    ((request_tiles 5 2 (by omega)).map Prod.fst = [3, 2, 1, 0] ∧
      (∀ z : Nat, numTilesAtZoom 5 z = ⌈(5 : ℚ) / 4 ^ z⌉₊) ∧
      (∀ zb ∈ request_tiles 5 2 (by omega),
        (zb.2.flatten).length = numTilesAtZoom 5 zb.1)) :=
  ⟨by omega, claim_C5 5 2 (by omega)⟩

/-! ## Claim C7: batch structure and join barrier -/

/-- Every event in the schedule from chunk index k onward carries a chunk tag
of at least k. -/
theorem chunkTraceAux_tag_ge (f : α → Bool) :
    ∀ (cs : List (List α)) (k : Nat), ∀ e ∈ chunkTraceAux f k cs, k ≤ e.1 := by
  intro cs
  induction cs with
  | nil => intro k e he; simp [chunkTraceAux] at he
  | cons c cs ih =>
    intro k e he
    rw [chunkTraceAux] at he
    rcases List.mem_append.mp he with h | h
    · rcases List.mem_append.mp h with h2 | h2 <;>
        (obtain ⟨a, _, rfl⟩ := List.mem_map.mp h2; exact le_rfl)
    · exact Nat.le_of_succ_le (ih (k + 1) e h)

/-- Pairwise tag ordering holds on any event segment whose tags are all
equal. -/
theorem pairwise_le_of_const_tag (k : Nat) (es : List (Nat × ReqEvent α))
    (h : ∀ e ∈ es, e.1 = k) :
    List.Pairwise (fun e1 e2 : Nat × ReqEvent α => e1.1 ≤ e2.1) es := by
  induction es with
  | nil => exact List.Pairwise.nil
  | cons e es ih =>
    refine List.Pairwise.cons ?_ (ih fun x hx => h x (List.mem_cons_of_mem e hx))
    intro b hb
    rw [h e (List.mem_cons_self e es), h b (List.mem_cons_of_mem e hb)]

/-- The batched schedule is ordered by chunk tag: no event of a later chunk
ever precedes an event of an earlier chunk, so every completion of chunk i
comes before every dispatch of chunk j for i < j. -/
theorem chunkTraceAux_pairwise (f : α → Bool) :
    ∀ (cs : List (List α)) (k : Nat),
      List.Pairwise (fun e1 e2 : Nat × ReqEvent α => e1.1 ≤ e2.1)
        (chunkTraceAux f k cs) := by
  intro cs
  induction cs with
  | nil => intro k; exact List.Pairwise.nil
  | cons c cs ih =>
    intro k
    rw [chunkTraceAux]
    refine List.pairwise_append.mpr ⟨?_, ih (k + 1), ?_⟩
    · refine pairwise_le_of_const_tag k _ ?_
      intro e he
      rcases List.mem_append.mp he with h2 | h2 <;>
        (obtain ⟨a, _, rfl⟩ := List.mem_map.mp h2; rfl)
    · intro x hx y hy
      have hxk : x.1 = k := by
        rcases List.mem_append.mp hx with h2 | h2 <;>
          (obtain ⟨a, _, rfl⟩ := List.mem_map.mp h2; rfl)
      have hyk : k + 1 ≤ y.1 := chunkTraceAux_tag_ge f cs (k + 1) y hy
      omega

/-- Every item of every chunk has both its dispatch and its completion, with
its own outcome, in the schedule, under the tag of its chunk. -/
theorem chunkTraceAux_mem (f : α → Bool) :
    ∀ (cs : List (List α)) (k : Nat) (c : List α), c ∈ cs → ∀ a ∈ c,
      ∃ i, (i, ReqEvent.dispatch a) ∈ chunkTraceAux f k cs ∧
        (i, ReqEvent.complete a (f a)) ∈ chunkTraceAux f k cs := by
  intro cs
  induction cs with
  | nil => intro k c hc; simp at hc
  | cons c0 cs ih =>
    intro k c hc a ha
    rcases List.mem_cons.mp hc with h | h
    · subst h
      refine ⟨k, ?_, ?_⟩
      · rw [chunkTraceAux]
        exact List.mem_append.mpr
          (Or.inl (List.mem_append.mpr (Or.inl (List.mem_map.mpr ⟨a, ha, rfl⟩))))
      · rw [chunkTraceAux]
        exact List.mem_append.mpr
          (Or.inl (List.mem_append.mpr (Or.inr (List.mem_map.mpr ⟨a, ha, rfl⟩))))
    · obtain ⟨i, h1, h2⟩ := ih (k + 1) c h a ha
      refine ⟨i, ?_, ?_⟩
      · rw [chunkTraceAux]
        exact List.mem_append.mpr (Or.inr h1)
      · rw [chunkTraceAux]
        exact List.mem_append.mpr (Or.inr h2)

/-- C7: the batcher forms exactly ceil(L / B) consecutive chunks of at most B
items covering the items in order; the execution schedule is ordered by chunk
(chunk i+1 is never dispatched before every completion of chunk i); and every
item is dispatched and completes with its own outcome regardless of the
outcomes of its siblings. -/
theorem claim_C7 (l : List α) (B : Nat) (hB : 0 < B) (f : α → Bool) :
    (chunkList B hB l).length = ⌈(l.length : ℚ) / B⌉₊ ∧
    (chunkList B hB l).flatten = l ∧
    (∀ c ∈ chunkList B hB l, c.length ≤ B) ∧
    List.Pairwise (fun e1 e2 : Nat × ReqEvent α => e1.1 ≤ e2.1)
      (chunkTrace f (chunkList B hB l)) ∧
    (∀ a ∈ l, ∃ i, (i, ReqEvent.dispatch a) ∈ chunkTrace f (chunkList B hB l) ∧
      (i, ReqEvent.complete a (f a)) ∈ chunkTrace f (chunkList B hB l)) := by
  refine ⟨?_, chunkList_flatten B hB l, chunkList_sizes B hB l,
    chunkTraceAux_pairwise f (chunkList B hB l) 0, ?_⟩
  · rw [chunkList_length B hB l, natCeilDiv_eq_ratCeil l.length B hB]
  · intro a ha
    have hfl : a ∈ (chunkList B hB l).flatten := by
      rw [chunkList_flatten B hB l]; exact ha
    obtain ⟨c, hc, hac⟩ := List.mem_flatten.mp hfl
    exact chunkTraceAux_mem f (chunkList B hB l) 0 c hc a hac

/-- C7 witness: three items batched two at a time, the first item failing. -/
theorem claim_C7_witness :
    0 < 2 ∧
    ((chunkList 2 (by omega) [10, 11, 12]).length = ⌈(([10, 11, 12] : List Nat).length : ℚ) / 2⌉₊ ∧
      (chunkList 2 (by omega) [10, 11, 12]).flatten = [10, 11, 12] ∧
      (∀ c ∈ chunkList 2 (by omega) [10, 11, 12], c.length ≤ 2) ∧
      List.Pairwise (fun e1 e2 : Nat × ReqEvent Nat => e1.1 ≤ e2.1)
        (chunkTrace (fun a => a == 10) (chunkList 2 (by omega) [10, 11, 12])) ∧
      (∀ a ∈ [10, 11, 12],
        ∃ i, (i, ReqEvent.dispatch a) ∈
            chunkTrace (fun a => a == 10) (chunkList 2 (by omega) [10, 11, 12]) ∧
          (i, ReqEvent.complete a ((fun a => a == 10) a)) ∈
            chunkTrace (fun a => a == 10) (chunkList 2 (by omega) [10, 11, 12]))) :=
  ⟨by omega, claim_C7 [10, 11, 12] 2 (by omega) (fun a => a == 10)⟩

/-! ## Claim C6: map-mode traversal invariants -/

/-- Characterization of the column loop: starting from a fetched total, the
emitted tiles are precisely the first numTiles - fetched tiles of the row, and
the total advances by the number emitted. -/
theorem emitRowLoop_spec (numTiles : Nat) :
    ∀ (txs : List Nat) (fetched ty zoom : Nat),
      (emitRowLoop numTiles txs fetched ty zoom).1 =
        (txs.map (fun tx => (tx, ty, zoom))).take (numTiles - fetched) ∧
      (emitRowLoop numTiles txs fetched ty zoom).2 =
        fetched + (emitRowLoop numTiles txs fetched ty zoom).1.length := by
  intro txs
  induction txs with
  | nil => intro fetched ty zoom; simp [emitRowLoop]
  | cons tx rest ih =>
    intro fetched ty zoom
    rw [emitRowLoop]
    by_cases hf : numTiles ≤ fetched
    · rw [if_pos hf]
      have h0 : numTiles - fetched = 0 := by omega
      simp [h0]
    · rw [if_neg hf]
      obtain ⟨ih1, ih2⟩ := ih (fetched + 1) ty zoom
      have hsucc : numTiles - fetched = (numTiles - (fetched + 1)) + 1 := by omega
      refine ⟨?_, ?_⟩
      · show (tx, ty, zoom) :: (emitRowLoop numTiles rest (fetched + 1) ty zoom).1 =
          ((tx, ty, zoom) :: rest.map (fun tx => (tx, ty, zoom))).take (numTiles - fetched)
        rw [hsucc, List.take_succ_cons, ih1]
      · show (emitRowLoop numTiles rest (fetched + 1) ty zoom).2 =
          fetched + ((tx, ty, zoom) :: (emitRowLoop numTiles rest (fetched + 1) ty zoom).1).length
        rw [ih2]
        simp only [List.length_cons]
        omega

/-- Characterization of the row loop: the tiles emitted for one zoom level are
precisely the first numTiles - fetched tiles of the row-major enumeration over
the given rows, and the fetched total advances by the number emitted. -/
theorem emitZoomLoop_spec (numTiles minTx maxTx zoom : Nat) :
    ∀ (tys : List Nat) (fetched : Nat),
      (emitZoomLoop numTiles minTx maxTx zoom tys fetched).1 =
        ((tys.map (fun ty =>
          (List.range' minTx (maxTx + 1 - minTx)).map (fun tx => (tx, ty, zoom)))).flatten).take
          (numTiles - fetched) ∧
      (emitZoomLoop numTiles minTx maxTx zoom tys fetched).2 =
        fetched + (emitZoomLoop numTiles minTx maxTx zoom tys fetched).1.length := by
  intro tys
  induction tys with
  | nil => intro fetched; simp [emitZoomLoop]
  | cons ty rest ih =>
    intro fetched
    obtain ⟨row1, row2⟩ :=
      emitRowLoop_spec numTiles (List.range' minTx (maxTx + 1 - minTx)) fetched ty zoom
    obtain ⟨ih1, ih2⟩ :=
      ih (emitRowLoop numTiles (List.range' minTx (maxTx + 1 - minTx)) fetched ty zoom).2
    rw [emitZoomLoop]
    simp only [List.map_cons, List.flatten_cons]
    rw [List.take_append_eq_append_take]
    have hlen : (emitRowLoop numTiles (List.range' minTx (maxTx + 1 - minTx)) fetched ty zoom).1.length =
        min (numTiles - fetched)
          ((List.range' minTx (maxTx + 1 - minTx)).map (fun tx => (tx, ty, zoom))).length := by
      rw [row1, List.length_take]
    have hidx : numTiles -
        (emitRowLoop numTiles (List.range' minTx (maxTx + 1 - minTx)) fetched ty zoom).2 =
        numTiles - fetched -
          ((List.range' minTx (maxTx + 1 - minTx)).map (fun tx => (tx, ty, zoom))).length := by
      rw [row2, hlen]
      omega
    refine ⟨?_, ?_⟩
    · rw [row1, ih1, hidx]
    · rw [ih2, row2]
      simp only [List.length_append]
      omega

/-- Every group produced by the zoom loop belongs to a zoom present in the
limits map and is a prefix of that zoom's row-major enumeration, and the
total number of tiles emitted across the groups never exceeds the remaining
budget. -/
theorem mapTilesLoop_spec (limits : Nat → Option TileMatrixLimits) (numTiles : Nat) :
    ∀ (zs : List Nat) (fetched : Nat),
      (∀ g ∈ mapTilesLoop limits numTiles zs fetched,
        ∃ lim, limits g.1 = some lim ∧ ∃ k, g.2 = (rowMajor lim g.1).take k) ∧
      ((mapTilesLoop limits numTiles zs fetched).map Prod.snd).flatten.length ≤
        numTiles - fetched := by
  intro zs
  induction zs with
  | nil => intro fetched; simp [mapTilesLoop]
  | cons z rest ih =>
    intro fetched
    rw [mapTilesLoop]
    cases hlz : limits z with
    | none => exact ⟨(ih fetched).1, le_trans (ih fetched).2 (by omega)⟩
    | some lim =>
      obtain ⟨z1, z2⟩ := emitZoomLoop_spec numTiles lim.minTileCol lim.maxTileCol z
        (List.range' lim.minTileRow (lim.maxTileRow + 1 - lim.minTileRow)) fetched
      obtain ⟨ihA, ihB⟩ := ih (emitZoomLoop numTiles lim.minTileCol lim.maxTileCol z
        (List.range' lim.minTileRow (lim.maxTileRow + 1 - lim.minTileRow)) fetched).2
      refine ⟨?_, ?_⟩
      · intro g hg
        rcases List.mem_cons.mp hg with h | h
        · subst h
          exact ⟨lim, hlz, numTiles - fetched, z1⟩
        · exact ihA g h
      · simp only [List.map_cons, List.flatten_cons, List.length_append]
        have hz1len : (emitZoomLoop numTiles lim.minTileCol lim.maxTileCol z
            (List.range' lim.minTileRow (lim.maxTileRow + 1 - lim.minTileRow))
            fetched).1.length ≤ numTiles - fetched := by
          rw [z1, List.length_take]
          omega
        omega

/-- Every tile of the row-major enumeration of one zoom level carries that
zoom and lies within the inclusive row and column bounds. -/
theorem mem_rowMajor (lim : TileMatrixLimits) (zoom : Nat) :
    ∀ t ∈ rowMajor lim zoom,
      t.2.2 = zoom ∧ lim.minTileCol ≤ t.1 ∧ t.1 ≤ lim.maxTileCol ∧
        lim.minTileRow ≤ t.2.1 ∧ t.2.1 ≤ lim.maxTileRow := by
  intro t ht
  unfold rowMajor at ht
  simp only [List.mem_flatten, List.mem_map] at ht
  obtain ⟨row, ⟨ty, hty, rfl⟩, htrow⟩ := ht
  simp only [List.mem_map] at htrow
  obtain ⟨tx, htx, rfl⟩ := htrow
  rw [List.mem_range'_1] at hty htx
  refine ⟨rfl, ?_, ?_, ?_, ?_⟩
  · show lim.minTileCol ≤ tx
    omega
  · show tx ≤ lim.maxTileCol
    omega
  · show lim.minTileRow ≤ ty
    omega
  · show ty ≤ lim.maxTileRow
    omega

/-- C6: every coordinate emitted by the map-mode traversal belongs to a zoom
level present in the limits map and lies within that level's inclusive
column and row bounds; within each zoom the coordinates are a prefix of the
row-major enumeration; the total emitted across all zooms never exceeds the
caller-supplied maximum; and absent zoom levels emit nothing. -/
theorem claim_C6 (limits : Nat → Option TileMatrixLimits) (maxZoom numTiles : Nat) :
    (∀ g ∈ request_map_tiles limits maxZoom numTiles,
      ∃ lim, limits g.1 = some lim ∧ (∃ k, g.2 = (rowMajor lim g.1).take k) ∧
        ∀ t ∈ g.2, t.2.2 = g.1 ∧
          lim.minTileCol ≤ t.1 ∧ t.1 ≤ lim.maxTileCol ∧
          lim.minTileRow ≤ t.2.1 ∧ t.2.1 ≤ lim.maxTileRow) ∧
    ((request_map_tiles limits maxZoom numTiles).map Prod.snd).flatten.length ≤ numTiles ∧
    (∀ z, limits z = none →
      ∀ tiles, (z, tiles) ∉ request_map_tiles limits maxZoom numTiles) := by
  obtain ⟨hA, hB⟩ := mapTilesLoop_spec limits numTiles (List.range (maxZoom + 1)) 0
  refine ⟨?_, by simpa using hB, ?_⟩
  · intro g hg
    obtain ⟨lim, hlim, k, hk⟩ := hA g hg
    refine ⟨lim, hlim, ⟨k, hk⟩, ?_⟩
    intro t ht
    rw [hk] at ht
    exact mem_rowMajor lim g.1 t (List.mem_of_mem_take ht)
  · intro z hz tiles hmem
    obtain ⟨lim, hlim, _⟩ := hA (z, tiles) hmem
    rw [hz] at hlim
    exact Option.noConfusion hlim

/-! ## Claim C8: cleanup happens exactly on READY or FAILED -/

/-- When every describe response reports REQUESTED, the retry-bounded locust
wait exhausts its retries and returns REQUESTED with the done flag false. -/
theorem waitLocustLoop_requested (resp : Nat → String)
    (hreq : ∀ n, resp n = "REQUESTED") :
    ∀ (numRetries : Nat) (fs : String) (k : Nat), 1 ≤ numRetries →
      waitLocustLoop resp numRetries fs k = ("REQUESTED", false) := by
  intro n
  induction n with
  | zero => intro fs k h; omega
  | succ n ih =>
    intro fs k h
    rw [waitLocustLoop, hreq k]
    rw [if_neg (by decide)]
    cases n with
    | zero => rfl
    | succ m => exact ih _ _ (by omega)

/-- C8: in both lifecycle behaviors the viewpoint is deleted exactly when a
viewpoint was created and the final status observed by the readiness wait is
READY or FAILED; in particular, when every describe keeps reporting REQUESTED
(the wait budget expires), no cleanup happens. -/
theorem claim_C8 (createdId : Option String) (resp : Nat → String) :
    ((view_new_image_behavior createdId resp).2 = true ↔
      createdId.isSome = true ∧ (wait_for_viewpoint_ready_locust resp = "READY" ∨
        wait_for_viewpoint_ready_locust resp = "FAILED")) ∧
    ((view_new_map_behavior createdId resp).2 = true ↔
      createdId.isSome = true ∧ (wait_for_viewpoint_ready_locust resp = "READY" ∨
        wait_for_viewpoint_ready_locust resp = "FAILED")) ∧
    ((∀ n, resp n = "REQUESTED") →
      wait_for_viewpoint_ready_locust resp = "REQUESTED" ∧
      (view_new_image_behavior createdId resp).2 = false ∧
      (view_new_map_behavior createdId resp).2 = false) := by
  cases createdId with
  | none =>
    refine ⟨by simp [view_new_image_behavior], by simp [view_new_map_behavior], ?_⟩
    intro hreq
    refine ⟨?_, by simp [view_new_image_behavior], by simp [view_new_map_behavior]⟩
    unfold wait_for_viewpoint_ready_locust
    rw [waitLocustLoop_requested resp hreq 120 "NOT_FOUND" 0 (by omega)]
  | some v =>
    refine ⟨?_, ?_, ?_⟩
    · simp [view_new_image_behavior]
    · simp [view_new_map_behavior]
    · intro hreq
      have hw : wait_for_viewpoint_ready_locust resp = "REQUESTED" := by
        unfold wait_for_viewpoint_ready_locust
        rw [waitLocustLoop_requested resp hreq 120 "NOT_FOUND" 0 (by omega)]
      refine ⟨hw, ?_, ?_⟩
      · simp [view_new_image_behavior, hw]
      · simp [view_new_map_behavior, hw]

/-- C8 witness: a created viewpoint whose describe responses never leave
REQUESTED. -/
theorem claim_C8_witness :
    ((view_new_image_behavior (some "vp") (fun _ => "REQUESTED")).2 = true ↔
      (some "vp").isSome = true ∧
        (wait_for_viewpoint_ready_locust (fun _ => "REQUESTED") = "READY" ∨
          wait_for_viewpoint_ready_locust (fun _ => "REQUESTED") = "FAILED")) ∧
    ((view_new_map_behavior (some "vp") (fun _ => "REQUESTED")).2 = true ↔
      (some "vp").isSome = true ∧
        (wait_for_viewpoint_ready_locust (fun _ => "REQUESTED") = "READY" ∨
          wait_for_viewpoint_ready_locust (fun _ => "REQUESTED") = "FAILED")) ∧
    ((∀ n : Nat, (fun _ : Nat => "REQUESTED") n = "REQUESTED") →
      wait_for_viewpoint_ready_locust (fun _ => "REQUESTED") = "REQUESTED" ∧
      (view_new_image_behavior (some "vp") (fun _ => "REQUESTED")).2 = false ∧
      (view_new_map_behavior (some "vp") (fun _ => "REQUESTED")).2 = false) :=
  claim_C8 (some "vp") (fun _ => "REQUESTED")

/-! ## Claim C9: classification of detail-fetch responses -/

/-- C9: for a detail fetch whose response body parsed as a JSON object with a
detail string, a 404 whose detail mentions the already-been-deleted message is
classified as a success (both in the field-checking handlers and in the
preview handler); any 404 without that message and any other error status is
recorded as a failure, again by both handler shapes; a non-error response
missing the expected field is recorded as a failure by the field-checking
handlers; and a non-error response with empty content is recorded as a
failure by the preview handler. In all these cases the outcome is a recorded
result of that fetch alone, not an exception. -/
theorem claim_C9 (field : String) (resp : FetchResponse) (obj : JsonObj)
    (d : String) (hjs : resp.js = some obj) (hd : List.lookup "detail" obj = some d) :
    (resp.status_code = 404 → strContains d alreadyDeletedMsg = true →
      detailFetchHandler field resp = Except.ok FetchResult.success ∧
      get_viewpoint_preview resp = Except.ok FetchResult.success) ∧
    (400 ≤ resp.status_code →
      (resp.status_code = 404 → strContains d alreadyDeletedMsg = false) →
      isRecordedFailure (detailFetchHandler field resp) = true) ∧
    (resp.status_code < 400 → resp.status_code ≠ 404 →
      List.lookup field obj = none →
      isRecordedFailure (detailFetchHandler field resp) = true) ∧
    (400 ≤ resp.status_code →
      (resp.status_code = 404 → strContains d alreadyDeletedMsg = false) →
      isRecordedFailure (get_viewpoint_preview resp) = true) ∧
    (resp.status_code < 400 → resp.status_code ≠ 404 → resp.content = false →
      isRecordedFailure (get_viewpoint_preview resp) = true) := by
  refine ⟨?_, ?_, ?_, ?_, ?_⟩
  · intro h404 hcont
    constructor
    · simp [detailFetchHandler, h404, hjs, hd, hcont]
    · simp [get_viewpoint_preview, h404, hjs, hd, hcont]
  · intro hge hns
    by_cases h404 : resp.status_code = 404
    · have hcont := hns h404
      cases hf : List.lookup field obj with
      | none =>
        simp [detailFetchHandler, h404, hjs, hd, hcont, hf, isRecordedFailure]
      | some v =>
        simp [detailFetchHandler, h404, hjs, hd, hcont, hf, defaultMark,
          isRecordedFailure]
    · have hlt : ¬resp.status_code < 400 := by omega
      cases hf : List.lookup field obj with
      | none =>
        simp [detailFetchHandler, h404, hjs, hf, isRecordedFailure]
      | some v =>
        simp [detailFetchHandler, h404, hjs, hf, defaultMark, hlt,
          isRecordedFailure]
  · intro hlt hne hf
    simp [detailFetchHandler, hne, hjs, hf, isRecordedFailure]
  · intro hge hns
    by_cases h404 : resp.status_code = 404
    · have hcont := hns h404
      cases hc : resp.content with
      | false =>
        simp [get_viewpoint_preview, h404, hjs, hd, hcont, hc, isRecordedFailure]
      | true =>
        simp [get_viewpoint_preview, h404, hjs, hd, hcont, hc, defaultMark,
          isRecordedFailure]
    · have hlt : ¬resp.status_code < 400 := by omega
      cases hc : resp.content with
      | false =>
        simp [get_viewpoint_preview, h404, hc, isRecordedFailure]
      | true =>
        simp [get_viewpoint_preview, h404, hc, defaultMark, hlt,
          isRecordedFailure]
  · intro hlt hne hc
    simp [get_viewpoint_preview, hne, hc, isRecordedFailure]

/-- C9 witness: a 404 response whose JSON body says the viewpoint has already
been deleted. -/
theorem claim_C9_witness :
    ((⟨404, some [("detail", "viewpoint has already been deleted")], true⟩ :
        FetchResponse).js = some [("detail", "viewpoint has already been deleted")] ∧
      List.lookup "detail" [("detail", "viewpoint has already been deleted")] =
        some "viewpoint has already been deleted") ∧
    (((⟨404, some [("detail", "viewpoint has already been deleted")], true⟩ :
        FetchResponse).status_code = 404 →
      strContains "viewpoint has already been deleted" alreadyDeletedMsg = true →
      detailFetchHandler "metadata"
          ⟨404, some [("detail", "viewpoint has already been deleted")], true⟩ =
        Except.ok FetchResult.success ∧
      get_viewpoint_preview
          ⟨404, some [("detail", "viewpoint has already been deleted")], true⟩ =
        Except.ok FetchResult.success) ∧
    (400 ≤ (⟨404, some [("detail", "viewpoint has already been deleted")], true⟩ :
        FetchResponse).status_code →
      ((⟨404, some [("detail", "viewpoint has already been deleted")], true⟩ :
        FetchResponse).status_code = 404 →
        strContains "viewpoint has already been deleted" alreadyDeletedMsg = false) →
      isRecordedFailure (detailFetchHandler "metadata"
        ⟨404, some [("detail", "viewpoint has already been deleted")], true⟩) = true) ∧
    ((⟨404, some [("detail", "viewpoint has already been deleted")], true⟩ :
        FetchResponse).status_code < 400 →
      (⟨404, some [("detail", "viewpoint has already been deleted")], true⟩ :
        FetchResponse).status_code ≠ 404 →
      List.lookup "metadata" [("detail", "viewpoint has already been deleted")] = none →
      isRecordedFailure (detailFetchHandler "metadata"
        ⟨404, some [("detail", "viewpoint has already been deleted")], true⟩) = true) ∧
    (400 ≤ (⟨404, some [("detail", "viewpoint has already been deleted")], true⟩ :
        FetchResponse).status_code →
      ((⟨404, some [("detail", "viewpoint has already been deleted")], true⟩ :
        FetchResponse).status_code = 404 →
        strContains "viewpoint has already been deleted" alreadyDeletedMsg = false) →
      isRecordedFailure (get_viewpoint_preview
        ⟨404, some [("detail", "viewpoint has already been deleted")], true⟩) = true) ∧
    ((⟨404, some [("detail", "viewpoint has already been deleted")], true⟩ :
        FetchResponse).status_code < 400 →
      (⟨404, some [("detail", "viewpoint has already been deleted")], true⟩ :
        FetchResponse).status_code ≠ 404 →
      (⟨404, some [("detail", "viewpoint has already been deleted")], true⟩ :
        FetchResponse).content = false →
      isRecordedFailure (get_viewpoint_preview
        ⟨404, some [("detail", "viewpoint has already been deleted")], true⟩) = true)) :=
  ⟨⟨rfl, rfl⟩,
    claim_C9 "metadata" ⟨404, some [("detail", "viewpoint has already been deleted")], true⟩
      [("detail", "viewpoint has already been deleted")]
      "viewpoint has already been deleted" rfl rfl⟩

/-! ## Claim C10: the unguarded 404 branch -/

/-- C10: every detail-fetch handler subscripts the parsed JSON body with the
detail key inside its 404 branch before checking that a body was parsed, so
the handlers finish without raising exactly under the precondition that every
404 response carries a parsed JSON object containing a detail key: under that
precondition (and on every non-404 response) the handler records an outcome,
while a 404 whose body is not JSON, or whose JSON lacks the detail key, makes
the handler raise instead of recording a failure. -/
theorem claim_C10 :
    (∀ (field : String) (resp : FetchResponse) (obj : JsonObj),
      resp.status_code = 404 → resp.js = some obj →
      (List.lookup "detail" obj).isSome = true →
      ∃ r, detailFetchHandler field resp = Except.ok r) ∧
    (∀ (field : String) (resp : FetchResponse),
      resp.status_code = 404 → resp.js = none →
      ∃ m, detailFetchHandler field resp = Except.error m) ∧
    (∀ (field : String) (resp : FetchResponse) (obj : JsonObj),
      resp.status_code = 404 → resp.js = some obj →
      List.lookup "detail" obj = none →
      ∃ m, detailFetchHandler field resp = Except.error m) ∧
    (∀ (field : String) (resp : FetchResponse), resp.status_code ≠ 404 →
      ∃ r, detailFetchHandler field resp = Except.ok r) ∧
    (∀ (resp : FetchResponse) (obj : JsonObj),
      resp.status_code = 404 → resp.js = some obj →
      (List.lookup "detail" obj).isSome = true →
      ∃ r, get_viewpoint_preview resp = Except.ok r) ∧
    (∀ resp : FetchResponse, resp.status_code = 404 → resp.js = none →
      ∃ m, get_viewpoint_preview resp = Except.error m) ∧
    (∀ (resp : FetchResponse) (obj : JsonObj),
      resp.status_code = 404 → resp.js = some obj →
      List.lookup "detail" obj = none →
      ∃ m, get_viewpoint_preview resp = Except.error m) ∧
    (∀ resp : FetchResponse, resp.status_code ≠ 404 →
      ∃ r, get_viewpoint_preview resp = Except.ok r) := by
  refine ⟨?_, ?_, ?_, ?_, ?_, ?_, ?_, ?_⟩
  · intro field resp obj h404 hjs hsome
    cases hd : List.lookup "detail" obj with
    | none => rw [hd] at hsome; simp at hsome
    | some d =>
      by_cases hcont : strContains d alreadyDeletedMsg = true
      · exact ⟨FetchResult.success, by simp [detailFetchHandler, h404, hjs, hd, hcont]⟩
      · have hcf : strContains d alreadyDeletedMsg = false := by
          cases hb : strContains d alreadyDeletedMsg
          · rfl
          · exact absurd hb hcont
        cases hf : List.lookup field obj with
        | none =>
          exact ⟨FetchResult.failure "expected field missing",
            by simp [detailFetchHandler, h404, hjs, hd, hcf, hf]⟩
        | some v =>
          exact ⟨defaultMark resp,
            by simp [detailFetchHandler, h404, hjs, hd, hcf, hf]⟩
  · intro field resp h404 hjs
    exact ⟨"TypeError: response.js is None", by simp [detailFetchHandler, h404, hjs]⟩
  · intro field resp obj h404 hjs hd
    exact ⟨"KeyError: detail", by simp [detailFetchHandler, h404, hjs, hd]⟩
  · intro field resp hne
    cases hjs : resp.js with
    | none => exact ⟨defaultMark resp, by simp [detailFetchHandler, hne, hjs]⟩
    | some obj =>
      cases hf : List.lookup field obj with
      | none =>
        exact ⟨FetchResult.failure "expected field missing",
          by simp [detailFetchHandler, hne, hjs, hf]⟩
      | some v =>
        exact ⟨defaultMark resp, by simp [detailFetchHandler, hne, hjs, hf]⟩
  · intro resp obj h404 hjs hsome
    cases hd : List.lookup "detail" obj with
    | none => rw [hd] at hsome; simp at hsome
    | some d =>
      by_cases hcont : strContains d alreadyDeletedMsg = true
      · exact ⟨FetchResult.success, by simp [get_viewpoint_preview, h404, hjs, hd, hcont]⟩
      · have hcf : strContains d alreadyDeletedMsg = false := by
          cases hb : strContains d alreadyDeletedMsg
          · rfl
          · exact absurd hb hcont
        cases hc : resp.content with
        | false =>
          exact ⟨FetchResult.failure "GetPreview response contained no content",
            by simp [get_viewpoint_preview, h404, hjs, hd, hcf, hc]⟩
        | true =>
          exact ⟨defaultMark resp,
            by simp [get_viewpoint_preview, h404, hjs, hd, hcf, hc]⟩
  · intro resp h404 hjs
    exact ⟨"TypeError: response.js is None", by simp [get_viewpoint_preview, h404, hjs]⟩
  · intro resp obj h404 hjs hd
    exact ⟨"KeyError: detail", by simp [get_viewpoint_preview, h404, hjs, hd]⟩
  · intro resp hne
    cases hc : resp.content with
    | false =>
      exact ⟨FetchResult.failure "GetPreview response contained no content",
        by simp [get_viewpoint_preview, hne, hc]⟩
    | true =>
      exact ⟨defaultMark resp, by simp [get_viewpoint_preview, hne, hc]⟩

/-- C10 witness: a 404 with an already-deleted JSON body is handled without an
exception, while a 404 whose body is not JSON makes the metadata handler
raise. -/
theorem claim_C10_witness :
    (∃ r, detailFetchHandler "metadata"
      ⟨404, some [("detail", "already been deleted")], true⟩ = Except.ok r) ∧
    (∃ m, detailFetchHandler "metadata" ⟨404, none, true⟩ = Except.error m) :=
  ⟨claim_C10.1 "metadata" ⟨404, some [("detail", "already been deleted")], true⟩
      [("detail", "already been deleted")] rfl rfl rfl,
    claim_C10.2.1 "metadata" ⟨404, none, true⟩ rfl rfl⟩

end TS
